import Mathlib

/-!
Shallow embedding of the `loggers` crate (src/lib.rs): a log-record router
(`Logger`) that dispatches each record to the registered sinks
(`CustomLogger`) whose routing key matches, with an optional fallback, and
the per-sink write that appends a JSON record to the sink's file and prints a
console line.  Side effects are modelled as an explicit trace of `Effect`s
applied to a file-system state `FS`; the clock reads (`Local::now()`) are
modelled as abstract timestamp-string parameters.
-/

set_option autoImplicit false

namespace Loggers

/-- Log severity levels, mirroring the five levels of the external `log`
facade (`log::Level`): Trace, Debug, Info, Warn, Error. -/
inductive Level : Type
  | trace
  | debug
  | info
  | warn
  | error
deriving DecidableEq, Repr

/-- Display string of a level as produced by the `log` crate:
`record.level()` formats via `Level::as_str`, which returns the uppercase
name from `LOG_LEVEL_NAMES`. -/
def Level.display : Level → String
  | Level.trace => "TRACE"
  | Level.debug => "DEBUG"
  | Level.info => "INFO"
  | Level.warn => "WARN"
  | Level.error => "ERROR"

/-- A log record as passed to `log::Log::log` (`log::Record`): severity
level, target (the routing key, `record.metadata().target()`), and the
formatted message (`record.args()`). -/
structure Record where
  level : Level
  target : String
  args : String
deriving DecidableEq, Repr

/-- Rust `CustomLogger` (src/lib.rs): a sink bound to one routing key (`target`)
and one output file path (`filepath`). -/
structure CustomLogger where
  target : String
  filepath : Option String
deriving DecidableEq, Repr

/-- Rust `Logger` (src/lib.rs): the router, an ordered list of sinks plus an
optional fallback.  The source stores `Box<dyn log::Log>` trait objects;
`CustomLogger` is the only `log::Log` implementation in the repository, so
the embedding instantiates the trait objects at `CustomLogger`. -/
structure Logger where
  loggers : List CustomLogger
  fallback : Option CustomLogger
deriving DecidableEq, Repr

/-- Observable side effects of one logging call: appending bytes to a file,
or printing one line to standard output. -/
inductive Effect : Type
  | fileAppend (path : String) (data : String)
  | console (line : String)
deriving DecidableEq, Repr

/-- File-system state: the directories known to exist and the files with
their current contents. -/
structure FS where
  dirs : List String
  files : List (String × String)
deriving DecidableEq, Repr

/-- Content of the file at path `p`, when it exists. -/
def FS.lookupFile (fs : FS) (p : String) : Option String :=
  (fs.files.find? (fun e => e.1 == p)).map (fun e => e.2)

/-- Set (create or overwrite) the file at path `p` to content `c`. -/
def FS.setFile (fs : FS) (p c : String) : FS :=
  { fs with files := (p, c) :: fs.files.filter (fun e => !(e.1 == p)) }

/-- Append `d` to the file at `p`, creating it when absent
(`OpenOptions::new().create(true).append(true)`). -/
def FS.appendFileData (fs : FS) (p d : String) : FS :=
  fs.setFile p (((fs.lookupFile p).getD "") ++ d)

/-- Model of `std::fs::create_dir_all`: make the directory tree up to `p` exist. -/
def FS.createDirAll (fs : FS) (p : String) : FS :=
  { fs with dirs := p :: fs.dirs }

/-- Model of `File::create`: create the file, truncating any existing content. -/
def FS.createFile (fs : FS) (p : String) : FS :=
  fs.setFile p ""

/-- Apply one effect to the file system; console lines do not change it. -/
def applyEffect (fs : FS) : Effect → FS
  | Effect.fileAppend p d => fs.appendFileData p d
  | Effect.console _ => fs

/-- Apply a trace of effects in order. -/
def applyEffects (fs : FS) (effs : List Effect) : FS :=
  effs.foldl applyEffect fs

/-- Split a character list at every `/`. -/
def splitOnSlash : List Char → List (List Char)
  | [] => [[]]
  | c :: rest =>
    let r := splitOnSlash rest
    if c == '/' then [] :: r
    else
      match r with
      | [] => [[c]]
      | h :: t => (c :: h) :: t

/-- Join components with `/` separators. -/
def joinSlash : List (List Char) → List Char
  | [] => []
  | [x] => x
  | x :: rest => x ++ '/' :: joinSlash rest

/-- Model of Rust `Path::parent`: `none` for an empty or root path,
otherwise the path with its last component removed. -/
def parentPath (p : String) : Option String :=
  if p = "" ∨ p = "/" then none
  else some (String.mk (joinSlash (splitOnSlash p.data).dropLast))

/-- Rust `CustomLogger::new` (src/lib.rs): create the parent directory tree of
`filepath` when the path has a parent (`create_dir_all`), then create —
truncating — the file itself (`File::create`), and return the logger with
`target` set and `filepath = Some(path)`.  The pair is (logger, updated
file system). -/
def CustomLogger.new (target filepath : String) (fs : FS) : CustomLogger × FS :=
  let fs1 := match parentPath filepath with
    | some par => fs.createDirAll par
    | none => fs
  let fs2 := fs1.createFile filepath
  ({ target := target, filepath := some filepath }, fs2)

/-- Rust `CustomLogger::enabled`: true iff the record's target string equals this
sink's configured target (exact, case-sensitive equality). -/
def CustomLogger.enabled (l : CustomLogger) (target : String) : Bool :=
  target == l.target

/-- The JSON text built by `CustomLogger::log` from the format string
`{"severity":"{}","timestamp":"{}","target":"{}","message":"{}"}`: the level
display, the timestamp read during the call, the sink's own target and the
record's message, spliced verbatim between the literal chunks. -/
def jsonText (lvl : Level) (ts target msg : String) : String :=
  "\x7b\"severity\":\"" ++ lvl.display ++ "\",\"timestamp\":\"" ++ ts
    ++ "\",\"target\":\"" ++ target ++ "\",\"message\":\"" ++ msg ++ "\"\x7d"

/-- The literal chunks of the JSON line preceding the message: everything up
to and including `"message":"`. -/
def jsonHead (lvl : Level) (ts target : String) : String :=
  "\x7b\"severity\":\"" ++ lvl.display ++ "\",\"timestamp\":\"" ++ ts
    ++ "\",\"target\":\"" ++ target ++ "\",\"message\":\""

/-- The console text built by `CustomLogger::log` from the format string
`[{}] {} {} - {}`: uppercased level name, the sink's target, a timestamp and
the message. -/
def printText (lvl : Level) (target ts msg : String) : String :=
  "[" ++ lvl.display.toUpper ++ "] " ++ target ++ " " ++ ts ++ " - " ++ msg

/-- Rust `CustomLogger::log`: returns early with no side effect when `enabled` is
false; otherwise appends the JSON record plus a newline to the file named by
`filepath` (the `Some` branch; the `None` branch instead prints
`Cannot open file None`), then prints the console line.  `ts` stands for the
`Local::now()` timestamp read during the call. -/
def CustomLogger.log (l : CustomLogger) (r : Record) (ts : String) : List Effect :=
  if !(l.enabled r.target) then []
  else
    (match l.filepath with
      | some fp => [Effect.fileAppend fp (jsonText r.level ts l.target r.args ++ "\n")]
      | none => [Effect.console "Cannot open file None"]) ++
    [Effect.console (printText r.level l.target ts r.args)]

/-- Rust `Logger::new`: empty router, no sinks, no fallback. -/
def Logger.new : Logger :=
  { loggers := [], fallback := none }

/-- Rust `Logger::add_logger`: append a sink to the ordered sink list. -/
def Logger.add_logger (lg : Logger) (l : CustomLogger) : Logger :=
  { lg with loggers := lg.loggers ++ [l] }

/-- Rust `Logger::set_fallback`: replace the fallback with the given one. -/
def Logger.set_fallback (lg : Logger) (l : CustomLogger) : Logger :=
  { lg with fallback := some l }

/-- Rust `Logger::enabled` (Log impl for Logger): always true — the router itself
performs no filtering. -/
def Logger.enabled (_ : Logger) (_ : String) : Bool :=
  true

/-- The sink loop of `Logger::log`: each sink whose `enabled` check passes
is asked to log, in registration order; the Boolean is the final value of
the `logged` flag. -/
def loggersPass : List CustomLogger → Record → String → List Effect × Bool
  | [], _, _ => ([], false)
  | l :: rest, r, ts =>
    let tail := loggersPass rest r ts
    if l.enabled r.target then (CustomLogger.log l r ts ++ tail.1, true)
    else (tail.1, tail.2)

/-- Rust `Logger::log` (Log impl for Logger): run the sink loop; when the
`logged` flag stayed false and a fallback is set, also invoke the fallback's
`log` (with no key check performed by the router itself). -/
def Logger.log (lg : Logger) (r : Record) (ts : String) : List Effect :=
  let pass := loggersPass lg.loggers r ts
  if !pass.2 then
    match lg.fallback with
    | some fb => pass.1 ++ CustomLogger.log fb r ts
    | none => pass.1
  else pass.1

/-- Is the effect a file write? -/
def Effect.isFileWrite : Effect → Bool
  | Effect.fileAppend _ _ => true
  | Effect.console _ => false

/-- Number of file writes in an effect trace. -/
def countFileWrites (effs : List Effect) : Nat :=
  (effs.filter Effect.isFileWrite).length

/-- A sequence of calls to `CustomLogger::log` on one sink, applied to the
file system; each entry pairs the record with the timestamp read during that
call. -/
def writeSeq (l : CustomLogger) (entries : List (Record × String)) (fs : FS) : FS :=
  entries.foldl (fun acc e => applyEffects acc (CustomLogger.log l e.1 e.2)) fs

/-- Concatenation of a list of strings, in order. -/
def strConcat : List String → String
  | [] => ""
  | s :: rest => s ++ strConcat rest

/-! ### A JSON validity checker

A recursive-descent parser for JSON values (RFC 8259 grammar: objects,
arrays, strings with escapes, numbers, `true`/`false`/`null`), used to state
whether a produced log line is well-formed JSON.  Recursion through nested
values is bounded by a fuel argument; `isValidJson` supplies fuel larger
than the input length, which suffices since every nesting step consumes at
least one character. -/

/-- The `{` character (written by code point to keep braces out of string
literals). -/
def lbrace : Char := '\x7b'

/-- The `}` character. -/
def rbrace : Char := '\x7d'

/-- JSON insignificant whitespace. -/
def isWs (c : Char) : Bool :=
  c == ' ' || c == '\t' || c == '\n' || c == '\r'

/-- Drop leading JSON whitespace. -/
def skipWs : List Char → List Char
  | [] => []
  | c :: rest => if isWs c then skipWs rest else c :: rest

/-- Hexadecimal digit, for `\uXXXX` escapes. -/
def isHexDigit (c : Char) : Bool :=
  c.isDigit || (Nat.ble 97 c.toNat && Nat.ble c.toNat 102)
    || (Nat.ble 65 c.toNat && Nat.ble c.toNat 70)

/-- Parse the body of a JSON string after the opening quote; returns the
input remaining after the closing quote. -/
def parseStringBody : List Char → Option (List Char)
  | [] => none
  | c :: rest =>
    if c == '"' then some rest
    else if c == '\\' then
      match rest with
      | [] => none
      | e :: rest2 =>
        if e == '"' || e == '\\' || e == '/' || e == 'b' || e == 'f'
            || e == 'n' || e == 'r' || e == 't' then
          parseStringBody rest2
        else if e == 'u' then
          match rest2 with
          | a :: b :: c2 :: d :: rest3 =>
            if isHexDigit a && isHexDigit b && isHexDigit c2 && isHexDigit d then
              parseStringBody rest3
            else none
          | _ => none
        else none
    else if Nat.ble 32 c.toNat then parseStringBody rest
    else none

/-- Consume any further decimal digits. -/
def parseDigitsRest : List Char → List Char
  | [] => []
  | c :: rest => if c.isDigit then parseDigitsRest rest else c :: rest

/-- Optional fraction part `.digits` of a JSON number. -/
def parseFrac : List Char → Option (List Char)
  | '.' :: rest =>
    match rest with
    | c :: r2 => if c.isDigit then some (parseDigitsRest r2) else none
    | [] => none
  | s => some s

/-- Optional exponent part of a JSON number. -/
def parseExp : List Char → Option (List Char)
  | [] => some []
  | c :: rest =>
    if c == 'e' || c == 'E' then
      let r := match rest with
        | s :: r2 => if s == '+' || s == '-' then r2 else rest
        | [] => rest
      match r with
      | d :: r3 => if d.isDigit then some (parseDigitsRest r3) else none
      | [] => none
    else some (c :: rest)

/-- A JSON number: optional minus, integer part without leading zeros,
optional fraction and exponent. -/
def parseNumber (s : List Char) : Option (List Char) :=
  let s1 := match s with
    | c :: r => if c == '-' then r else s
    | [] => s
  match s1 with
  | [] => none
  | c :: rest =>
    if c == '0' then (parseFrac rest).bind parseExp
    else if c.isDigit then (parseFrac (parseDigitsRest rest)).bind parseExp
    else none

mutual

/-- Parse one JSON value; returns the remaining input. -/
def parseValue : Nat → List Char → Option (List Char)
  | 0, _ => none
  | Nat.succ f, s =>
    match skipWs s with
    | [] => none
    | c :: rest =>
      if c == '"' then parseStringBody rest
      else if c.toNat == 123 then parseObjectBody f rest
      else if c == '[' then parseArrayBody f rest
      else if c == 't' then
        match rest with
        | 'r' :: 'u' :: 'e' :: r => some r
        | _ => none
      else if c == 'f' then
        match rest with
        | 'a' :: 'l' :: 's' :: 'e' :: r => some r
        | _ => none
      else if c == 'n' then
        match rest with
        | 'u' :: 'l' :: 'l' :: r => some r
        | _ => none
      else if c == '-' || c.isDigit then parseNumber (c :: rest)
      else none

/-- Parse an object after the opening brace: empty object or first member
then the remaining members. -/
def parseObjectBody : Nat → List Char → Option (List Char)
  | 0, _ => none
  | Nat.succ f, s =>
    match skipWs s with
    | [] => none
    | c :: rest =>
      if c.toNat == 125 then some rest
      else if c == '"' then
        match parseStringBody rest with
        | none => none
        | some r1 =>
          match skipWs r1 with
          | ':' :: r2 =>
            match parseValue f r2 with
            | none => none
            | some r3 => parseMembersRest f r3
          | _ => none
      else none

/-- After one object member: either the closing brace or a comma and a
further member. -/
def parseMembersRest : Nat → List Char → Option (List Char)
  | 0, _ => none
  | Nat.succ f, s =>
    match skipWs s with
    | [] => none
    | c :: rest =>
      if c.toNat == 125 then some rest
      else if c == ',' then
        match skipWs rest with
        | '"' :: r1 =>
          match parseStringBody r1 with
          | none => none
          | some r2 =>
            match skipWs r2 with
            | ':' :: r3 =>
              match parseValue f r3 with
              | none => none
              | some r4 => parseMembersRest f r4
            | _ => none
        | _ => none
      else none

/-- Parse an array after the opening bracket. -/
def parseArrayBody : Nat → List Char → Option (List Char)
  | 0, _ => none
  | Nat.succ f, s =>
    match skipWs s with
    | [] => none
    | c :: rest =>
      if c == ']' then some rest
      else
        match parseValue f (c :: rest) with
        | none => none
        | some r1 => parseArrayRest f r1

/-- After one array element: either the closing bracket or a comma and a
further element. -/
def parseArrayRest : Nat → List Char → Option (List Char)
  | 0, _ => none
  | Nat.succ f, s =>
    match skipWs s with
    | [] => none
    | c :: rest =>
      if c == ']' then some rest
      else if c == ',' then
        match parseValue f rest with
        | none => none
        | some r1 => parseArrayRest f r1
      else none

end

/-- A string is valid JSON when it parses as one JSON value followed only by
whitespace. -/
def isValidJson (s : String) : Bool :=
  match parseValue (s.length + 1) s.data with
  | some rest => (skipWs rest).isEmpty
  | none => false

/-- A character needing no JSON escaping inside a string literal: not a
quote, not a backslash, not a control character. -/
def benignChar (c : Char) : Bool :=
  !(c == '"') && !(c == '\\') && Nat.ble 32 c.toNat

/-- All characters benign. -/
def benignChars (l : List Char) : Bool :=
  l.all benignChar

/-- A string needing no JSON escaping. -/
def benign (s : String) : Bool :=
  benignChars s.data

/-- The characters of the first JSON key, `severity`. -/
def keySeverity : List Char := ['s', 'e', 'v', 'e', 'r', 'i', 't', 'y']

/-- The characters of the second JSON key, `timestamp`. -/
def keyTimestamp : List Char := ['t', 'i', 'm', 'e', 's', 't', 'a', 'm', 'p']

/-- The characters of the third JSON key, `target`. -/
def keyTarget : List Char := ['t', 'a', 'r', 'g', 'e', 't']

/-- The characters of the fourth JSON key, `message`. -/
def keyMessage : List Char := ['m', 'e', 's', 's', 'a', 'g', 'e']

/-! ### Helper lemmas about the router and the sinks -/

/-- When no sink accepts the record, the sink loop produces no effect and
leaves the `logged` flag false. -/
theorem loggersPass_none (ls : List CustomLogger) (r : Record) (ts : String)
    (h : ∀ l ∈ ls, l.enabled r.target = false) :
    loggersPass ls r ts = ([], false) := by
  induction ls with
  | nil => rfl
  | cons l rest ih =>
    have h1 : l.enabled r.target = false := h l (List.mem_cons_self l rest)
    have h2 := ih (fun x hx => h x (List.mem_cons_of_mem l hx))
    simp [loggersPass, h1, h2]

/-- The effects of the sink loop are exactly the concatenated effects of the
accepting sinks, in registration order. -/
theorem loggersPass_fst (ls : List CustomLogger) (r : Record) (ts : String) :
    (loggersPass ls r ts).1
      = ((ls.filter (fun l => l.enabled r.target)).map
          (fun l => CustomLogger.log l r ts)).flatten := by
  induction ls with
  | nil => rfl
  | cons l rest ih =>
    cases h : l.enabled r.target <;> simp [loggersPass, h, ih, List.filter_cons]

/-- The final `logged` flag is true iff some sink accepted. -/
theorem loggersPass_snd (ls : List CustomLogger) (r : Record) (ts : String) :
    (loggersPass ls r ts).2 = ls.any (fun l => l.enabled r.target) := by
  induction ls with
  | nil => rfl
  | cons l rest ih =>
    cases h : l.enabled r.target <;> simp [loggersPass, h, ih]

/-- A sink whose accept check fails produces no effect. -/
theorem log_of_disabled (l : CustomLogger) (r : Record) (ts : String)
    (h : l.enabled r.target = false) :
    CustomLogger.log l r ts = [] := by
  simp [CustomLogger.log, h]

/-- A sink whose accept check passes and whose file path is set appends the
JSON record to its file and prints the console line. -/
theorem log_of_enabled (l : CustomLogger) (r : Record) (ts fp : String)
    (h : l.enabled r.target = true) (hfp : l.filepath = some fp) :
    CustomLogger.log l r ts
      = [Effect.fileAppend fp (jsonText r.level ts l.target r.args ++ "\n"),
         Effect.console (printText r.level l.target ts r.args)] := by
  simp [CustomLogger.log, h, hfp]

/-! ### Helper lemmas about the file-system state -/

theorem lookupFile_setFile_self (fs : FS) (p c : String) :
    (fs.setFile p c).lookupFile p = some c := by
  simp [FS.setFile, FS.lookupFile]

/-- Lookup via `find?` for a key other than `p` ignores the removal of `p`-entries. -/
theorem find?_filter_ne (files : List (String × String)) (p q : String) (h : q ≠ p) :
    List.find? (fun e => e.1 == q) (files.filter (fun e => !(e.1 == p)))
      = List.find? (fun e => e.1 == q) files := by
  induction files with
  | nil => rfl
  | cons e rest ih =>
    by_cases hp : e.1 = p
    · have h1 : (e.1 == p) = true := beq_iff_eq.mpr hp
      have h2 : (e.1 == q) = false := by
        apply beq_eq_false_iff_ne.mpr
        rw [hp]
        exact fun hh => h hh.symm
      simp [List.filter_cons, h1, List.find?, h2, ih]
    · have h1 : (e.1 == p) = false := beq_eq_false_iff_ne.mpr hp
      by_cases hq : e.1 = q
      · have h2 : (e.1 == q) = true := beq_iff_eq.mpr hq
        simp [List.filter_cons, h1, List.find?, h2]
      · have h2 : (e.1 == q) = false := beq_eq_false_iff_ne.mpr hq
        simp [List.filter_cons, h1, List.find?, h2, ih]

theorem lookupFile_setFile_ne (fs : FS) (p c q : String) (h : q ≠ p) :
    (fs.setFile p c).lookupFile q = fs.lookupFile q := by
  have h2 : (p == q) = false := beq_eq_false_iff_ne.mpr (fun hh => h hh.symm)
  simp [FS.setFile, FS.lookupFile, List.find?, h2, find?_filter_ne fs.files p q h]

theorem lookupFile_appendFileData_self (fs : FS) (p d : String) :
    (fs.appendFileData p d).lookupFile p
      = some (((fs.lookupFile p).getD "") ++ d) := by
  simp [FS.appendFileData, lookupFile_setFile_self]

theorem lookupFile_appendFileData_ne (fs : FS) (p d q : String) (h : q ≠ p) :
    (fs.appendFileData p d).lookupFile q = fs.lookupFile q := by
  simp [FS.appendFileData, lookupFile_setFile_ne fs p _ q h]

/-- Applying the effect trace of one accepted file write. -/
theorem applyEffects_write (fs : FS) (fp d cl : String) :
    applyEffects fs [Effect.fileAppend fp d, Effect.console cl]
      = fs.appendFileData fp d := rfl

/-! ### Helper lemmas about the JSON checker -/

/-- From `(!b) = true` conclude `b = false`. -/
theorem bool_not_true {b : Bool} (h : (!b) = true) : b = false := by
  cases b
  · rfl
  · exact absurd h (by decide)

theorem benignChar_parts (c : Char) (h : benignChar c = true) :
    (c == '"') = false ∧ (c == '\\') = false ∧ Nat.ble 32 c.toNat = true := by
  unfold benignChar at h
  rw [Bool.and_eq_true] at h
  obtain ⟨h12, h3⟩ := h
  rw [Bool.and_eq_true] at h12
  obtain ⟨h1, h2⟩ := h12
  exact ⟨bool_not_true h1, bool_not_true h2, h3⟩

set_option maxHeartbeats 4000000 in
/-- A string of benign characters parses up to its closing quote. -/
theorem parseStringBody_benign (key : List Char) (rest : List Char)
    (h : benignChars key = true) :
    parseStringBody (key ++ '"' :: rest) = some rest := by
  induction key with
  | nil =>
    have hq : (('"') == '"') = true := by decide
    rw [List.nil_append, parseStringBody.eq_def]
    simp [hq]
  | cons c l ih =>
    rw [List.cons_append]
    have hc : benignChar c = true := by
      unfold benignChars at h
      rw [List.all_cons, Bool.and_eq_true] at h
      exact h.1
    have hl : benignChars l = true := by
      unfold benignChars at h
      rw [List.all_cons, Bool.and_eq_true] at h
      exact h.2
    obtain ⟨h1, h2, h3⟩ := benignChar_parts c hc
    rw [parseStringBody.eq_def]
    simp [h1, h2, h3, ih hl]

theorem skipWs_not_ws (c : Char) (l : List Char) (h : isWs c = false) :
    skipWs (c :: l) = c :: l := by
  simp [skipWs, h]

theorem parseValue_string (f : Nat) (l : List Char) :
    parseValue (f + 1) ('"' :: l) = parseStringBody l := by
  have hws : isWs '"' = false := by decide
  simp [parseValue, skipWs_not_ws _ _ hws]

theorem parseValue_objBody (f : Nat) (l : List Char) :
    parseValue (f + 1) (lbrace :: l) = parseObjectBody f l := by
  have hws : isWs lbrace = false := by decide
  have h1 : (lbrace == '"') = false := by decide
  have h2 : (lbrace.toNat == 123) = true := by decide
  simp [parseValue, skipWs_not_ws _ _ hws, h1, h2]

/-- The first member of an object: benign key, colon, benign string value. -/
theorem parseObjectBody_member (f : Nat) (key val rest : List Char)
    (hk : benignChars key = true) (hv : benignChars val = true) :
    parseObjectBody (f + 2) ('"' :: (key ++ '"' :: ':' :: '"' :: (val ++ '"' :: rest)))
      = parseMembersRest (f + 1) rest := by
  have hwsq : isWs '"' = false := by decide
  have hwsc : isWs ':' = false := by decide
  have hA : (('"').toNat == 125) = false := by decide
  have hB : (('"') == '"') = true := by decide
  rw [parseObjectBody.eq_def]
  simp only [skipWs_not_ws _ _ hwsq, hA, hB, Bool.false_eq_true, if_false, if_true]
  rw [parseStringBody_benign key _ hk]
  simp only [skipWs_not_ws _ _ hwsc]
  rw [parseValue_string f _, parseStringBody_benign val _ hv]

/-- A further member after a comma: benign key, colon, benign string value. -/
theorem parseMembersRest_member (f : Nat) (key val rest : List Char)
    (hk : benignChars key = true) (hv : benignChars val = true) :
    parseMembersRest (f + 2)
        (',' :: '"' :: (key ++ '"' :: ':' :: '"' :: (val ++ '"' :: rest)))
      = parseMembersRest (f + 1) rest := by
  have hwsq : isWs '"' = false := by decide
  have hwsc : isWs ':' = false := by decide
  have hwsm : isWs ',' = false := by decide
  have hA : ((',').toNat == 125) = false := by decide
  have hB : ((',') == ',') = true := by decide
  rw [parseMembersRest.eq_def]
  simp only [skipWs_not_ws _ _ hwsm, hA, hB, Bool.false_eq_true, if_false, if_true]
  simp only [skipWs_not_ws _ _ hwsq]
  rw [parseStringBody_benign key _ hk]
  simp only [skipWs_not_ws _ _ hwsc]
  rw [parseValue_string f _, parseStringBody_benign val _ hv]

theorem parseMembersRest_close (f : Nat) (rest : List Char) :
    parseMembersRest (f + 1) (rbrace :: rest) = some rest := by
  have hws : isWs rbrace = false := by decide
  have hA : (rbrace.toNat == 125) = true := by decide
  rw [parseMembersRest.eq_def]
  simp [skipWs_not_ws _ _ hws, hA]

/-- Decomposition of the characters of a produced JSON line into the object
scaffolding around the four interpolated fields. -/
theorem jsonText_data (lvl : Level) (ts tgt msg : String) :
    (jsonText lvl ts tgt msg).data
      = lbrace :: '"' :: (keySeverity ++ '"' :: ':' :: '"'
          :: ((lvl.display).data ++ '"' :: ',' :: '"'
          :: (keyTimestamp ++ '"' :: ':' :: '"'
          :: (ts.data ++ '"' :: ',' :: '"'
          :: (keyTarget ++ '"' :: ':' :: '"'
          :: (tgt.data ++ '"' :: ',' :: '"'
          :: (keyMessage ++ '"' :: ':' :: '"'
          :: (msg.data ++ '"' :: [rbrace])))))))) := by
  simp [jsonText, String.data_append, lbrace, rbrace, keySeverity, keyTimestamp,
    keyTarget, keyMessage]

/-- With benign interpolated fields, the produced JSON line parses as one
value consuming the whole input. -/
theorem parseValue_jsonText (f : Nat) (lvl : Level) (ts tgt msg : String)
    (hts : benign ts = true) (htgt : benign tgt = true) (hmsg : benign msg = true) :
    parseValue (f + 6) (jsonText lvl ts tgt msg).data = some [] := by
  rw [jsonText_data]
  have hsev : benignChars (lvl.display).data = true := by cases lvl <;> decide
  have hkS : benignChars keySeverity = true := by decide
  have hkTs : benignChars keyTimestamp = true := by decide
  have hkTg : benignChars keyTarget = true := by decide
  have hkM : benignChars keyMessage = true := by decide
  show parseValue ((f + 5) + 1) _ = some []
  rw [parseValue_objBody]
  show parseObjectBody ((f + 3) + 2) _ = some []
  rw [parseObjectBody_member _ _ _ _ hkS hsev]
  show parseMembersRest ((f + 2) + 2) _ = some []
  rw [parseMembersRest_member _ _ _ _ hkTs hts]
  show parseMembersRest ((f + 1) + 2) _ = some []
  rw [parseMembersRest_member _ _ _ _ hkTg htgt]
  show parseMembersRest ((f + 0) + 2) _ = some []
  rw [parseMembersRest_member _ _ _ _ hkM hmsg]
  show parseMembersRest (f + 1) _ = some []
  rw [parseMembersRest_close]

/-- With benign interpolated fields, the produced JSON line is valid JSON. -/
theorem isValidJson_jsonText (lvl : Level) (ts tgt msg : String)
    (hts : benign ts = true) (htgt : benign tgt = true) (hmsg : benign msg = true) :
    isValidJson (jsonText lvl ts tgt msg) = true := by
  have hlen : 13 ≤ (jsonText lvl ts tgt msg).length := by
    have hl : (jsonText lvl ts tgt msg).length
        = (jsonText lvl ts tgt msg).data.length := rfl
    rw [hl, jsonText_data]
    simp [keySeverity, keyTimestamp, keyTarget, keyMessage]
  obtain ⟨f, hf⟩ : ∃ f, (jsonText lvl ts tgt msg).length + 1 = f + 6 :=
    ⟨(jsonText lvl ts tgt msg).length - 5, by omega⟩
  unfold isValidJson
  rw [hf, parseValue_jsonText f lvl ts tgt msg hts htgt hmsg]
  rfl

/-- Benign characters contain no newline. -/
theorem benignChars_no_newline (l : List Char) (h : benignChars l = true) :
    l.all (fun c => !(c == '\n')) = true := by
  induction l with
  | nil => rfl
  | cons c rest ih =>
    unfold benignChars at h
    rw [List.all_cons, Bool.and_eq_true] at h
    obtain ⟨hc, hrest⟩ := h
    rw [List.all_cons, Bool.and_eq_true]
    refine ⟨?_, ih hrest⟩
    obtain ⟨-, -, h3⟩ := benignChar_parts c hc
    rw [Bool.not_eq_true']
    apply beq_eq_false_iff_ne.mpr
    intro he
    rw [he] at h3
    exact absurd h3 (by decide)

/-- Content of the sink's file after a sequence of accepted writes: the old
content followed by one newline-terminated JSON record per write, in call
order. -/
theorem writeSeq_lookupFile (l : CustomLogger) (fp : String)
    (hfp : l.filepath = some fp) :
    ∀ (entries : List (Record × String)),
      (∀ e ∈ entries, l.enabled e.1.target = true) →
      ∀ (fs : FS) (init : String), fs.lookupFile fp = some init →
        (writeSeq l entries fs).lookupFile fp
          = some (init ++ strConcat (entries.map
              (fun e => jsonText e.1.level e.2 l.target e.1.args ++ "\n"))) := by
  intro entries
  induction entries with
  | nil =>
    intro _ fs init hinit
    simpa [writeSeq, strConcat, String.append_empty] using hinit
  | cons e rest ih =>
    intro hacc fs init hinit
    have he : l.enabled e.1.target = true := hacc e (List.mem_cons_self e rest)
    have hlog := log_of_enabled l e.1 e.2 fp he hfp
    have hstep : writeSeq l (e :: rest) fs
        = writeSeq l rest (applyEffects fs (CustomLogger.log l e.1 e.2)) := rfl
    rw [hstep, hlog, applyEffects_write]
    have hlook : (fs.appendFileData fp
          (jsonText e.1.level e.2 l.target e.1.args ++ "\n")).lookupFile fp
        = some (init ++ (jsonText e.1.level e.2 l.target e.1.args ++ "\n")) := by
      rw [lookupFile_appendFileData_self, hinit]
      rfl
    rw [ih (fun x hx => hacc x (List.mem_cons_of_mem e hx)) _ _ hlook,
      String.append_assoc]
    rfl

/-- Files other than the sink's own are untouched by a write sequence. -/
theorem writeSeq_lookupFile_ne (l : CustomLogger) (fp : String)
    (hfp : l.filepath = some fp) (q : String) (hq : q ≠ fp) :
    ∀ (entries : List (Record × String)) (fs : FS),
      (writeSeq l entries fs).lookupFile q = fs.lookupFile q := by
  intro entries
  induction entries with
  | nil => intro fs; rfl
  | cons e rest ih =>
    intro fs
    have hstep : writeSeq l (e :: rest) fs
        = writeSeq l rest (applyEffects fs (CustomLogger.log l e.1 e.2)) := rfl
    rw [hstep, ih]
    cases hen : l.enabled e.1.target with
    | false =>
      rw [log_of_disabled l e.1 e.2 hen]
      rfl
    | true =>
      rw [log_of_enabled l e.1 e.2 fp hen hfp, applyEffects_write,
        lookupFile_appendFileData_ne fs fp _ q hq]

/-- With benign interpolated fields, the produced JSON line contains no
newline character. -/
theorem jsonText_no_newline (lvl : Level) (ts tgt msg : String)
    (hts : benign ts = true) (htgt : benign tgt = true) (hmsg : benign msg = true) :
    (jsonText lvl ts tgt msg).data.all (fun c => !(c == '\n')) = true := by
  rw [jsonText_data]
  have hsev : (lvl.display).data.all (fun c => !(c == '\n')) = true := by
    cases lvl <;> decide
  have hts' := benignChars_no_newline _ hts
  have htgt' := benignChars_no_newline _ htgt
  have hmsg' := benignChars_no_newline _ hmsg
  simp_all [List.all_cons, List.all_append, List.all_eq_true, keySeverity,
    keyTimestamp, keyTarget, keyMessage, lbrace, rbrace]

/-- The console line always starts with an opening bracket, so it is never
the `Cannot open file` message of the `None` branch. -/
theorem printText_ne_cannot (lvl : Level) (tgt ts msg : String) :
    printText lvl tgt ts msg ≠ "Cannot open file None" := by
  intro h
  have hd : (printText lvl tgt ts msg).data.head? = some '[' := by
    have hb : ("[" : String).data = ['['] := by decide
    simp [printText, String.data_append, hb]
  rw [h] at hd
  have hC : ("Cannot open file None" : String).data.head? = some 'C' := by decide
  rw [hC] at hd
  exact absurd hd (by decide)

/-! ### The claims -/

/-- Claim C1 (corrected): when no registered sink accepts the event and a
fallback is set, `Logger::log` does invoke the fallback's `log` with no key
check by the router — but the fallback, a `CustomLogger`, performs its own
key check at the top of `log`: it writes when the event's routing key equals
its configured key and produces no effect otherwise, rather than always
writing. -/
theorem c1_fallback_key_check (lg : Logger) (fb : CustomLogger) (r : Record)
    (ts fp : String)
    (hmiss : ∀ l ∈ lg.loggers, l.enabled r.target = false)
    (hfb : lg.fallback = some fb) (hfp : fb.filepath = some fp) :
    Logger.log lg r ts = CustomLogger.log fb r ts
    ∧ (r.target ≠ fb.target → CustomLogger.log fb r ts = [])
    ∧ (r.target = fb.target →
        CustomLogger.log fb r ts
          = [Effect.fileAppend fp (jsonText r.level ts fb.target r.args ++ "\n"),
             Effect.console (printText r.level fb.target ts r.args)]) := by
  have hpass := loggersPass_none lg.loggers r ts hmiss
  refine ⟨by simp [Logger.log, hpass, hfb], ?_, ?_⟩
  · intro hne
    exact log_of_disabled fb r ts (beq_eq_false_iff_ne.mpr hne)
  · intro heq
    exact log_of_enabled fb r ts fp (beq_iff_eq.mpr heq) hfp

/-- Witness for C1: empty sink list, fallback keyed `default` on `f.log`,
event keyed `x` — the fallback is the whole dispatch, and it writes
nothing. -/
theorem c1_fallback_key_check_witness :
    Logger.log ⟨[], some ⟨"default", some "f.log"⟩⟩ ⟨Level.debug, "x", "m"⟩ "T"
      = CustomLogger.log ⟨"default", some "f.log"⟩ ⟨Level.debug, "x", "m"⟩ "T"
    ∧ CustomLogger.log ⟨"default", some "f.log"⟩ ⟨Level.debug, "x", "m"⟩ "T" = [] := by
  have h := c1_fallback_key_check ⟨[], some ⟨"default", some "f.log"⟩⟩
    ⟨"default", some "f.log"⟩ ⟨Level.debug, "x", "m"⟩ "T" "f.log"
    (by decide) rfl rfl
  exact ⟨h.1, h.2.1 (by decide)⟩

/-- Counterexample to C1 as stated: no sinks are registered and a fallback
is set, so the event (keyed `x`, unlike the fallback's `default`) reaches
the fallback — yet the dispatch produces no effect and zero file writes: the
fallback did check the routing key instead of always writing. -/
theorem c1_counterexample :
    (Logger.log ⟨[], some ⟨"default", some "f.log"⟩⟩
        ⟨Level.debug, "x", "Default"⟩ "T" = [])
    ∧ countFileWrites (Logger.log ⟨[], some ⟨"default", some "f.log"⟩⟩
        ⟨Level.debug, "x", "Default"⟩ "T") = 0 := by
  exact ⟨by decide, by decide⟩

/-- Claim C2 (corrected): with a fallback set, an event matching no sink
produces zero sink writes and hands the event to the fallback once; that
invocation writes exactly once when the event's key equals the fallback's
configured key and zero times otherwise (not unconditionally once).  An
event matching at least one sink never reaches the fallback. -/
theorem c2_fallback_only_on_miss (lg : Logger) (fb : CustomLogger) (r : Record)
    (ts fp : String) (hfb : lg.fallback = some fb) (hfp : fb.filepath = some fp) :
    ((∀ l ∈ lg.loggers, l.enabled r.target = false) →
        (loggersPass lg.loggers r ts).1 = []
        ∧ Logger.log lg r ts = CustomLogger.log fb r ts
        ∧ countFileWrites (Logger.log lg r ts)
            = (if r.target == fb.target then 1 else 0))
    ∧ ((∃ l ∈ lg.loggers, l.enabled r.target = true) →
        Logger.log lg r ts = (loggersPass lg.loggers r ts).1) := by
  constructor
  · intro hmiss
    have hpass := loggersPass_none lg.loggers r ts hmiss
    have hlog : Logger.log lg r ts = CustomLogger.log fb r ts := by
      simp [Logger.log, hpass, hfb]
    refine ⟨by rw [hpass], hlog, ?_⟩
    rw [hlog]
    cases heq : (r.target == fb.target) with
    | false =>
      rw [log_of_disabled fb r ts heq]
      rfl
    | true =>
      rw [log_of_enabled fb r ts fp heq hfp]
      rfl
  · intro hex
    have hany : lg.loggers.any (fun l => l.enabled r.target) = true :=
      List.any_eq_true.mpr hex
    have hsnd := loggersPass_snd lg.loggers r ts
    simp [Logger.log, hsnd, hany]

/-- Witness for C2: one sink keyed `a`, fallback keyed `default`, event
keyed `x`: no sink write, the dispatch is the fallback's `log`, and the
write count is given by the fallback's own key check. -/
theorem c2_fallback_only_on_miss_witness :
    (loggersPass [⟨"a", some "a.log"⟩] ⟨Level.info, "x", "m"⟩ "T").1 = []
    ∧ Logger.log ⟨[⟨"a", some "a.log"⟩], some ⟨"default", some "f.log"⟩⟩
        ⟨Level.info, "x", "m"⟩ "T"
      = CustomLogger.log ⟨"default", some "f.log"⟩ ⟨Level.info, "x", "m"⟩ "T"
    ∧ countFileWrites (Logger.log ⟨[⟨"a", some "a.log"⟩], some ⟨"default", some "f.log"⟩⟩
        ⟨Level.info, "x", "m"⟩ "T")
      = (if ("x" : String) == "default" then 1 else 0) := by
  exact (c2_fallback_only_on_miss
    ⟨[⟨"a", some "a.log"⟩], some ⟨"default", some "f.log"⟩⟩
    ⟨"default", some "f.log"⟩ ⟨Level.info, "x", "m"⟩ "T" "f.log" rfl rfl).1 (by decide)

/-- Counterexample to C2 as stated: one sink keyed `a`, fallback keyed
`default`, event keyed `x` — the event matches no sink and a fallback is
set, yet the dispatch performs zero file writes, not exactly one fallback
write. -/
theorem c2_counterexample :
    ((⟨[⟨"a", some "a.log"⟩], some ⟨"default", some "f.log"⟩⟩ : Logger).loggers.all
        (fun l => !(l.enabled "x")) = true)
    ∧ countFileWrites (Logger.log
        ⟨[⟨"a", some "a.log"⟩], some ⟨"default", some "f.log"⟩⟩
        ⟨Level.info, "x", "m"⟩ "T") = 0 := by
  exact ⟨by decide, by decide⟩

/-- Claim C3 (confirmed): the sink loop delivers the event to exactly the
registered sinks whose configured key equals the event's routing key — all
of them, in registration order, not only the first — and to no sink whose
key differs; acceptance is exact case-sensitive string equality; each
accepting sink appends its JSON record to its file and prints its console
line, and each non-accepting sink contributes nothing. -/
theorem c3_routing_correctness (lg : Logger) (r : Record) (ts : String) :
    (loggersPass lg.loggers r ts).1
      = ((lg.loggers.filter (fun l => l.enabled r.target)).map
          (fun l => CustomLogger.log l r ts)).flatten
    ∧ (∀ l ∈ lg.loggers, l.enabled r.target = (r.target == l.target))
    ∧ (∀ l ∈ lg.loggers, ∀ fp, l.filepath = some fp → r.target = l.target →
        CustomLogger.log l r ts
          = [Effect.fileAppend fp (jsonText r.level ts l.target r.args ++ "\n"),
             Effect.console (printText r.level l.target ts r.args)])
    ∧ (∀ l ∈ lg.loggers, r.target ≠ l.target → CustomLogger.log l r ts = []) := by
  refine ⟨loggersPass_fst lg.loggers r ts, ?_, ?_, ?_⟩
  · intro l _
    rfl
  · intro l _ fp hfp heq
    exact log_of_enabled l r ts fp (beq_iff_eq.mpr heq) hfp
  · intro l _ hne
    exact log_of_disabled l r ts (beq_eq_false_iff_ne.mpr hne)

/-- Witness for C3: two sinks both keyed `k` (fan-out) and an event keyed
`k`: the loop is the fan-out over the accepting sinks, and the first sink's
delivery is the record append plus the console line. -/
theorem c3_routing_correctness_witness :
    (loggersPass [⟨"k", some "a.log"⟩, ⟨"k", some "b.log"⟩]
        ⟨Level.info, "k", "m"⟩ "T").1
      = (([(⟨"k", some "a.log"⟩ : CustomLogger), ⟨"k", some "b.log"⟩].filter
            (fun l => l.enabled "k")).map
          (fun l => CustomLogger.log l ⟨Level.info, "k", "m"⟩ "T")).flatten
    ∧ CustomLogger.log (⟨"k", some "a.log"⟩ : CustomLogger) ⟨Level.info, "k", "m"⟩ "T"
        = [Effect.fileAppend "a.log" (jsonText Level.info "T" "k" "m" ++ "\n"),
           Effect.console (printText Level.info "k" "T" "m")] := by
  have h := c3_routing_correctness
    ⟨[⟨"k", some "a.log"⟩, ⟨"k", some "b.log"⟩], none⟩ ⟨Level.info, "k", "m"⟩ "T"
  exact ⟨h.1, h.2.2.1 ⟨"k", some "a.log"⟩ (List.mem_cons_self _ _) "a.log" rfl rfl⟩

/-- Claim C4 (confirmed): with no fallback set, an event whose key matches
no registered sink produces no effect whatsoever — no file write, no console
write — and dispatch returns normally (the embedding is a total function),
leaving every file-system state unchanged. -/
theorem c4_silent_drop (lg : Logger) (r : Record) (ts : String)
    (hfb : lg.fallback = none)
    (hmiss : ∀ l ∈ lg.loggers, l.enabled r.target = false) :
    Logger.log lg r ts = []
    ∧ ∀ fs : FS, applyEffects fs (Logger.log lg r ts) = fs := by
  have hpass := loggersPass_none lg.loggers r ts hmiss
  have h : Logger.log lg r ts = [] := by simp [Logger.log, hpass, hfb]
  exact ⟨h, fun fs => by rw [h]; rfl⟩

/-- Witness for C4: one sink keyed `a`, no fallback, event keyed `x`. -/
theorem c4_silent_drop_witness :
    Logger.log ⟨[⟨"a", some "a.log"⟩], none⟩ ⟨Level.warn, "x", "m"⟩ "T" = []
    ∧ applyEffects ⟨[], []⟩
        (Logger.log ⟨[⟨"a", some "a.log"⟩], none⟩ ⟨Level.warn, "x", "m"⟩ "T")
      = ⟨[], []⟩ := by
  have h := c4_silent_drop ⟨[⟨"a", some "a.log"⟩], none⟩ ⟨Level.warn, "x", "m"⟩ "T"
    rfl (by decide)
  exact ⟨h.1, h.2 ⟨[], []⟩⟩

/-- Claim C5 (confirmed): for every accepted event, the sink's write appends
to its file exactly the newline-terminated record
`{"severity":"<LEVEL>","timestamp":"<ts>","target":"<key>","message":"<text>"}`
with the four keys in that order, the severity being the uppercase level
name (TRACE/DEBUG/INFO/WARN/ERROR), and the target field the sink's own
configured routing key — not the event's; besides the file append, the only
other effect is the console line. -/
theorem c5_record_format (l : CustomLogger) (r : Record) (ts fp : String)
    (hacc : l.enabled r.target = true) (hfp : l.filepath = some fp) :
    CustomLogger.log l r ts
      = [Effect.fileAppend fp
           ("\x7b\"severity\":\"" ++ r.level.display ++ "\",\"timestamp\":\"" ++ ts
             ++ "\",\"target\":\"" ++ l.target ++ "\",\"message\":\"" ++ r.args
             ++ "\"\x7d" ++ "\n"),
         Effect.console (printText r.level l.target ts r.args)]
    ∧ (r.level.display = "TRACE" ∨ r.level.display = "DEBUG"
        ∨ r.level.display = "INFO" ∨ r.level.display = "WARN"
        ∨ r.level.display = "ERROR") := by
  constructor
  · rw [log_of_enabled l r ts fp hacc hfp]
    rfl
  · cases r.level <;> simp [Level.display]

/-- Witness for C5: the sink keyed `test`, an Info event keyed `test` with
message `Hello, world!`. -/
theorem c5_record_format_witness :
    CustomLogger.log ⟨"test", some "s.log"⟩ ⟨Level.info, "test", "Hello, world!"⟩ "T"
      = [Effect.fileAppend "s.log"
           ("\x7b\"severity\":\"" ++ (Level.info).display ++ "\",\"timestamp\":\"" ++ "T"
             ++ "\",\"target\":\"" ++ "test" ++ "\",\"message\":\"" ++ "Hello, world!"
             ++ "\"\x7d" ++ "\n"),
         Effect.console (printText Level.info "test" "T" "Hello, world!")] := by
  exact (c5_record_format ⟨"test", some "s.log"⟩ ⟨Level.info, "test", "Hello, world!"⟩
    "T" "s.log" (by decide) rfl).1

/-- Claim C6 (confirmed): the message is interpolated verbatim into the JSON
record — the line is literally the fixed head chunks, then the unmodified
message bytes, then the closing quote and brace, with no escaping of quote,
backslash or control characters; consequently there is a message (one
containing a double quote) whose produced line is not valid JSON, while an
ordinary message still yields valid JSON. -/
theorem c6_message_not_escaped :
    (∀ (lvl : Level) (ts tgt msg : String),
        jsonText lvl ts tgt msg = jsonHead lvl ts tgt ++ msg ++ "\"\x7d")
    ∧ isValidJson (jsonText Level.info "2024-01-01T00:00:00.000+09:00" "test"
        "Hello, world!") = true
    ∧ (∃ msg : String,
        isValidJson (jsonText Level.info "2024-01-01T00:00:00.000+09:00" "test"
          msg) = false) := by
  refine ⟨fun lvl ts tgt msg => rfl, by decide, ⟨"say \"hi\"", by decide⟩⟩

/-- Claim C7 (corrected): a sequence of accepted writes to one sink appends
exactly one newline-terminated record per write, in call order, leaving the
prior content in place unchanged and touching no other file; each appended
record is well-formed JSON — and contains no newline of its own — provided
the timestamp, the sink's key and the message contain no double quote,
backslash or control character (the unescaped interpolation makes the
unconditional well-formedness of the original claim false). -/
theorem c7_append_only (l : CustomLogger) (fp init : String)
    (entries : List (Record × String)) (fs : FS)
    (hfp : l.filepath = some fp) (hinit : fs.lookupFile fp = some init)
    (hacc : ∀ e ∈ entries, l.enabled e.1.target = true) :
    (writeSeq l entries fs).lookupFile fp
      = some (init ++ strConcat (entries.map
          (fun e => jsonText e.1.level e.2 l.target e.1.args ++ "\n")))
    ∧ (entries.map (fun e => jsonText e.1.level e.2 l.target e.1.args)).length
        = entries.length
    ∧ (∀ e ∈ entries, benign e.2 = true → benign l.target = true →
        benign e.1.args = true →
        isValidJson (jsonText e.1.level e.2 l.target e.1.args) = true
        ∧ (jsonText e.1.level e.2 l.target e.1.args).data.all
            (fun c => !(c == '\n')) = true)
    ∧ (∀ q, q ≠ fp → (writeSeq l entries fs).lookupFile q = fs.lookupFile q) := by
  refine ⟨writeSeq_lookupFile l fp hfp entries hacc fs init hinit,
    List.length_map _ _, ?_, ?_⟩
  · intro e _ hts htgt hmsg
    exact ⟨isValidJson_jsonText _ _ _ _ hts htgt hmsg,
      jsonText_no_newline _ _ _ _ hts htgt hmsg⟩
  · intro q hq
    exact writeSeq_lookupFile_ne l fp hfp q hq entries fs

/-- Witness for C7: two accepted writes on a sink keyed `k` whose file
already holds `old`; the file ends with the two records in order, and the
first record is valid JSON. -/
theorem c7_append_only_witness :
    (writeSeq ⟨"k", some "w.log"⟩
        [(⟨Level.info, "k", "m1"⟩, "T1"), (⟨Level.error, "k", "m2"⟩, "T2")]
        ⟨[], [("w.log", "old")]⟩).lookupFile "w.log"
      = some ("old" ++ strConcat [jsonText Level.info "T1" "k" "m1" ++ "\n",
          jsonText Level.error "T2" "k" "m2" ++ "\n"])
    ∧ isValidJson (jsonText Level.info "T1" "k" "m1") = true := by
  have h := c7_append_only ⟨"k", some "w.log"⟩ "w.log" "old"
    [(⟨Level.info, "k", "m1"⟩, "T1"), (⟨Level.error, "k", "m2"⟩, "T2")]
    ⟨[], [("w.log", "old")]⟩ rfl (by decide) (by decide)
  exact ⟨h.1, (h.2.2.1 (⟨Level.info, "k", "m1"⟩, "T1") (by decide)
    (by decide) (by decide) (by decide)).1⟩

/-- Counterexample to C7 as stated: a single accepted write (N = 1) of a
message containing a double quote produces a file whose one record is not
well-formed JSON, refuting the unconditional per-line well-formedness. -/
theorem c7_counterexample :
    (writeSeq ⟨"test", some "t.log"⟩ [(⟨Level.info, "test", "say \"hi\""⟩, "T")]
        ⟨[], [("t.log", "")]⟩).lookupFile "t.log"
      = some (jsonText Level.info "T" "test" "say \"hi\"" ++ "\n")
    ∧ isValidJson (jsonText Level.info "T" "test" "say \"hi\"") = false := by
  exact ⟨by decide, by decide⟩

/-- Claim C8 (confirmed): constructing a sink creates the parent directory
tree of the output path (when the path has a parent) and creates —
truncating — the file, which therefore exists and is empty right after
construction; this holds over any prior file-system state, so a second
construction at the same path, even after arbitrary writes by the first
sink, also succeeds and leaves the file empty again. -/
theorem c8_new_creates_and_truncates (t fp : String) (fs : FS) :
    ((CustomLogger.new t fp fs).2).lookupFile fp = some ""
    ∧ (∀ par, parentPath fp = some par →
        par ∈ ((CustomLogger.new t fp fs).2).dirs)
    ∧ (∀ (t2 : String) (entries : List (Record × String)),
        ((CustomLogger.new t2 fp (writeSeq (CustomLogger.new t fp fs).1 entries
            (CustomLogger.new t fp fs).2)).2).lookupFile fp = some "") := by
  have hnew : ∀ (t' : String) (fs' : FS),
      ((CustomLogger.new t' fp fs').2).lookupFile fp = some "" := by
    intro t' fs'
    unfold CustomLogger.new
    cases hp : parentPath fp <;>
      simp [hp, FS.createFile, lookupFile_setFile_self]
  refine ⟨hnew t fs, ?_, fun t2 entries => hnew t2 _⟩
  intro par hpar
  unfold CustomLogger.new
  simp [hpar, FS.createFile, FS.setFile, FS.createDirAll]

/-- Witness for C8 at the path used by the repository's own test. -/
theorem c8_new_creates_and_truncates_witness :
    ((CustomLogger.new "test" "tests/output/system.log" ⟨[], []⟩).2).lookupFile
        "tests/output/system.log" = some ""
    ∧ "tests/output"
        ∈ ((CustomLogger.new "test" "tests/output/system.log" ⟨[], []⟩).2).dirs := by
  have h := c8_new_creates_and_truncates "test" "tests/output/system.log" ⟨[], []⟩
  exact ⟨h.1, h.2.1 "tests/output" (by decide)⟩

/-- Claim C9 (confirmed): calling `CustomLogger::log` directly with a record
whose target differs from the logger's configured target — as the router's
fallback path may do — returns immediately with no side effect: the effect
trace is empty and every file-system state is left unchanged. -/
theorem c9_log_mismatch_no_effect (l : CustomLogger) (r : Record) (ts : String)
    (h : r.target ≠ l.target) :
    CustomLogger.log l r ts = []
    ∧ ∀ fs : FS, applyEffects fs (CustomLogger.log l r ts) = fs := by
  have h0 : CustomLogger.log l r ts = [] :=
    log_of_disabled l r ts (beq_eq_false_iff_ne.mpr h)
  exact ⟨h0, fun fs => by rw [h0]; rfl⟩

/-- Witness for C9: a logger keyed `default`, a record keyed `other`, and a
non-empty file system that stays intact. -/
theorem c9_log_mismatch_no_effect_witness :
    CustomLogger.log ⟨"default", some "f.log"⟩ ⟨Level.error, "other", "m"⟩ "T" = []
    ∧ applyEffects ⟨["d"], [("f.log", "x")]⟩
        (CustomLogger.log ⟨"default", some "f.log"⟩ ⟨Level.error, "other", "m"⟩ "T")
      = ⟨["d"], [("f.log", "x")]⟩ := by
  have h := c9_log_mismatch_no_effect ⟨"default", some "f.log"⟩
    ⟨Level.error, "other", "m"⟩ "T" (by decide)
  exact ⟨h.1, h.2 ⟨["d"], [("f.log", "x")]⟩⟩

/-- Claim C10 (confirmed): every logger built by `CustomLogger::new` has
`filepath = Some(path)` — and the embedding, like the source, offers no
operation that changes it — so its `log` always takes the `Some` branch:
its effects are exactly the file append plus the console line when the key
matches, and nothing otherwise, never the `Cannot open file` message of the
unreachable `None` branch. -/
theorem c10_filepath_always_some (t fp : String) (fs : FS) (r : Record) (ts : String) :
    ((CustomLogger.new t fp fs).1).filepath = some fp
    ∧ CustomLogger.log ((CustomLogger.new t fp fs).1) r ts
        = (if r.target == t then
            [Effect.fileAppend fp (jsonText r.level ts t r.args ++ "\n"),
             Effect.console (printText r.level t ts r.args)]
          else [])
    ∧ ((CustomLogger.log ((CustomLogger.new t fp fs).1) r ts).all
        (fun e => !(e == Effect.console "Cannot open file None"))) = true := by
  have h1 : ((CustomLogger.new t fp fs).1) = ⟨t, some fp⟩ := rfl
  have h2 : CustomLogger.log ((CustomLogger.new t fp fs).1) r ts
      = (if r.target == t then
          [Effect.fileAppend fp (jsonText r.level ts t r.args ++ "\n"),
           Effect.console (printText r.level t ts r.args)]
        else []) := by
    rw [h1]
    cases he : (r.target == t) with
    | true =>
      rw [log_of_enabled ⟨t, some fp⟩ r ts fp he rfl]
      simp
    | false =>
      rw [log_of_disabled ⟨t, some fp⟩ r ts he]
      simp
  refine ⟨rfl, h2, ?_⟩
  rw [h2]
  cases he : (r.target == t) with
  | true =>
    simp only [if_pos rfl, List.all_cons, List.all_nil, Bool.and_true]
    have ha : (Effect.fileAppend fp (jsonText r.level ts t r.args ++ "\n")
        == Effect.console "Cannot open file None") = false := by
      apply beq_eq_false_iff_ne.mpr
      intro hcontra
      cases hcontra
    have hb : (Effect.console (printText r.level t ts r.args)
        == Effect.console "Cannot open file None") = false := by
      apply beq_eq_false_iff_ne.mpr
      intro hcontra
      exact printText_ne_cannot r.level t ts r.args (Effect.console.inj hcontra)
    simp [ha, hb]
  | false =>
    simp

/-- Witness for C10: the constructor at the test path yields `Some`, and a
matching record's log contains only the append and the console line. -/
theorem c10_filepath_always_some_witness :
    ((CustomLogger.new "test" "s.log" ⟨[], []⟩).1).filepath = some "s.log"
    ∧ ((CustomLogger.log ((CustomLogger.new "test" "s.log" ⟨[], []⟩).1)
        ⟨Level.info, "test", "m"⟩ "T").all
        (fun e => !(e == Effect.console "Cannot open file None"))) = true := by
  have h := c10_filepath_always_some "test" "s.log" ⟨[], []⟩ ⟨Level.info, "test", "m"⟩ "T"
  exact ⟨h.1, h.2.2⟩

end Loggers
